import Mathlib

/-!
Verification of the client-side visual-effects layer of the site
(src/static/app.8212c0a7.js) against its natural-language specification.

Shallow embedding conventions:
* GLSL / JS floating-point arithmetic is modelled over the rationals
  (exact real arithmetic).  All constants of the source are decimal
  literals, read here as the exact rationals they denote.
* A fragment coordinate gl_FragCoord.xy is (px + 0.5, py + 0.5) for the
  integer pixel (px, py); functions over pixels take px py as naturals.
* Uint8Array cells are naturals; writes of the source always store values
  in [0, 255], which the development proves.
* The only non-algebraic library calls of the source are Math.cos and
  Math.sin inside generateBlueNoise (transcendental, so not expressible
  by an executable rational function).  Their sole use is to pick the
  rounded neighbour offset pair of a swap candidate; the embedding
  abstracts exactly that pair as a parameter (off : pass to index to
  offset pair), and every theorem below holds for all choices of it,
  in particular for the one the browser computes.
* Array.prototype.sort with comparator (a, b) => a.k - b.k is a
  correct (stable) comparison sort; it is modelled by insertionSort.
-/

/-- GLSL clamp(x, 0.0, 1.0) = min(max(x, 0), 1). -/
def clamp01 (x : ℚ) : ℚ := min (max x 0) 1

/-- GLSL mix(x, y, a) = x * (1 - a) + y * a. -/
def mixQ (x y a : ℚ) : ℚ := x * (1 - a) + y * a

/-- GLSL step(edge, x): 0.0 when x < edge, else 1.0. -/
def stepQ (edge x : ℚ) : ℚ := if x < edge then 0 else 1

/-- GLSL fract(x) = x - floor(x); also the JS expression v % 1.0 for
nonnegative v. -/
def fractGL (x : ℚ) : ℚ := x - (⌊x⌋ : ℚ)

/-- GLSL smoothstep(e0, e1, x): clamp the normalized position to [0,1]
and apply t * t * (3 - 2 * t). -/
def smoothstepQ (e0 e1 x : ℚ) : ℚ :=
  let t := clamp01 ((x - e0) / (e1 - e0))
  t * t * (3 - 2 * t)

/-- The hash function of both fragment shaders (fsSource and
fsSourceImage): p3 = fract(vec3(p.xyx) * 0.1031);
p3 += dot(p3, p3.yzx + 33.33); return fract((p3.x + p3.y) * p3.z). -/
def hashGL (x y : ℚ) : ℚ :=
  let a := fractGL (x * 0.1031)
  let b := fractGL (y * 0.1031)
  let c := fractGL (x * 0.1031)
  let d := a * (b + 33.33) + b * (c + 33.33) + c * (a + 33.33)
  fractGL ((a + d + (b + d)) * (c + d))

/-- The 4x4 Atkinson-style threshold table of atkinsonThreshold (the
shader stores these as floats and divides by 16). -/
def atkTable : List ℕ := [0, 12, 3, 15, 8, 4, 11, 7, 2, 14, 1, 13, 10, 6, 9, 5]

/-- atkinsonThreshold(pos) for pos = gl_FragCoord of pixel (px, py):
idx = (y mod 4) * 4 + (x mod 4), result thresholds[idx] / 16.  The GLSL
lookup loop (return thresholds[i] when i == idx, else 0.0 after the
loop) is lookup with default 0 since idx < 16 always. -/
def atkinsonThreshold (px py : ℕ) : ℚ :=
  ((atkTable.getD ((py % 4) * 4 + px % 4) 0 : ℕ) : ℚ) / 16

/-- clusteredThreshold(pos): the 2x2 clustered pattern, idx = y*2+x over
the 2x2 cell; 0 at idx 0, 0.5 at idx 1, 0.75 at idx 2, else 0.25. -/
def clusteredThreshold (px py : ℕ) : ℚ :=
  let idx := (py % 2) * 2 + px % 2
  if idx = 0 then 0 else if idx = 1 then 0.5 else if idx = 2 then 0.75 else 0.25

/-- The 4x4 clustered-dot table of clustered4Threshold. -/
def clustered4Table : List ℕ := [12, 5, 6, 13, 4, 0, 1, 7, 11, 3, 2, 8, 15, 10, 9, 14]

/-- clustered4Threshold(pos): table value at (y mod 4)*4 + (x mod 4),
divided by 16. -/
def clustered4Threshold (px py : ℕ) : ℚ :=
  ((clustered4Table.getD ((py % 4) * 4 + px % 4) 0 : ℕ) : ℚ) / 16

/-- The 8x8 Bayer matrix uploaded as the u_bayer texture (init and
initDitheredImage upload the same 64 bytes). -/
def bayerBytes : List ℕ :=
  [0, 128, 32, 160, 8, 136, 40, 168, 192, 64, 224, 96, 200, 72, 232, 104,
   48, 176, 16, 144, 56, 184, 24, 152, 240, 112, 208, 80, 248, 120, 216, 88,
   12, 140, 44, 172, 4, 132, 36, 164, 204, 76, 236, 108, 196, 68, 228, 100,
   60, 188, 28, 156, 52, 180, 20, 148, 252, 124, 220, 92, 244, 116, 212, 84]

/-- The 8x8 clustered-dot byte table (const clustered8, identical in both
script sections). -/
def clustered8Bytes : List ℕ :=
  [252, 220, 184, 144, 140, 180, 216, 248, 224, 164, 128, 84, 80, 124, 160, 212,
   188, 132, 60, 28, 24, 56, 120, 176, 148, 88, 32, 4, 0, 20, 72, 136,
   152, 92, 36, 8, 12, 44, 96, 156, 192, 116, 64, 40, 48, 76, 128, 196,
   228, 168, 108, 68, 88, 112, 172, 232, 255, 236, 200, 160, 164, 204, 240, 255]

/-- Sampling a LUMINANCE/UNSIGNED_BYTE texture of side `size` with REPEAT
wrap and NEAREST filtering at the coordinate mod(gl_FragCoord.xy, size) /
size: the texel at row py mod size, column px mod size, scaled to
[0, 1] as byte / 255. -/
def texSample (tex : ℕ → ℕ) (size px py : ℕ) : ℚ :=
  ((tex ((py % size) * size + px % size) : ℕ) : ℚ) / 255

/-- Squared Euclidean distance (times 4, to stay integral) of pixel i of
an size-sized cell from the cell center ((size-1)/2, (size-1)/2):
with x = i mod size, y = i / size this is (2x - (size-1))^2 +
(2y - (size-1))^2 = 4 * (dx*dx + dy*dy) of the source.  The source
compares Math.sqrt(dx*dx + dy*dy); square root is strictly monotone on
nonnegative reals, so comparisons (and ties) of the two keys agree. -/
def distKey (size i : ℕ) : ℤ :=
  (2 * ((i % size : ℕ) : ℤ) - ((size : ℤ) - 1)) ^ 2 +
    (2 * ((i / size : ℕ) : ℤ) - ((size : ℤ) - 1)) ^ 2

/-- The exact squared Euclidean distance of pixel i from the cell center,
dx*dx + dy*dy with dx = (i mod size) - (size-1)/2 and
dy = (i / size) - (size-1)/2, as in generateClusteredDot. -/
def distSq (size i : ℕ) : ℚ :=
  ((i % size : ℕ) - ((size : ℚ) - 1) / 2) ^ 2 +
    ((i / size : ℕ) - ((size : ℚ) - 1) / 2) ^ 2

/-- The pixel indices of a size x size cell ordered by distance from the
cell center (the distances array of generateClusteredDot after its
comparison sort).  The source builds the records in index order and
sorts by the dist field. -/
def clusterOrder (size : ℕ) : List ℕ :=
  List.insertionSort (fun i j => distKey size i ≤ distKey size j)
    (List.range (size * size))

/-- generateClusteredDot(size): pixels[distances[rank].idx] =
Math.floor(rank / distances.length * 255).  Functionally: the byte at
index idx is 255 * rank / n (natural floor division) where rank is the
position of idx in the distance-sorted order.  The exact value
rank / n * 255 is never an integer for the sizes used (255 is coprime to
the power-of-two cell areas) and is bounded away from integers by far
more than the double-precision error, so the float floor agrees with
the exact one. -/
def generateClusteredDot (size : ℕ) : ℕ → ℕ :=
  fun idx => 255 * ((clusterOrder size).indexOf idx) / (size * size)

/-- The plastic constant literal of generateBlueNoise. -/
def phi2 : ℚ := 1.32471795724

/-- R2 low-discrepancy value of pixel i: (0.5 + a1 * x + a2 * y) % 1.0
with a1 = 1 / phi2, a2 = 1 / (phi2 * phi2); the operand is nonnegative,
so the JS remainder is fract. -/
def r2Val (size i : ℕ) : ℚ :=
  fractGL (0.5 + (1 / phi2) * (i % size : ℕ) + (1 / (phi2 * phi2)) * (i / size : ℕ))

/-- Pixel indices sorted by their R2 value (the values array of
generateBlueNoise after sorting by val). -/
def blueOrder (size : ℕ) : List ℕ :=
  List.insertionSort (fun i j => r2Val size i ≤ r2Val size j)
    (List.range (size * size))

/-- The initial blue-noise pattern: pixels[values[rank].idx] =
Math.floor(rank / n * 255), i.e. byte 255 * rank / n at the pixel of
rank-th smallest R2 value. -/
def blueInit (size : ℕ) : ℕ → ℕ :=
  fun idx => 255 * ((blueOrder size).indexOf idx) / (size * size)

/-- One iteration of the refinement loop body of generateBlueNoise for
pass `pass` and pixel i: pick the neighbour
x2 = (x1 + dx + size) % size, y2 = (y1 + dy + size) % size where
(dx, dy) = (Math.round(Math.cos(angle) * radius),
Math.round(Math.sin(angle) * radius)) is abstracted as off pass i
(see the file header); swap pixels i and j = y2 * size + x2 when i is
not j and 64 < |v1 - v2| < 192.  The JS remainder agrees with Int.emod
here because its dividend x1 + dx + size is nonnegative for the actual
offsets (|dx| is at most the radius, at most 4, below the size 64 in
use). -/
def swapAt (size : ℕ) (off : ℕ → ℕ → ℤ × ℤ) (pass : ℕ) (pix : ℕ → ℕ) (i : ℕ) : ℕ → ℕ :=
  let x1 := i % size
  let y1 := i / size
  let d := off pass i
  let x2 := (((x1 : ℤ) + d.1 + (size : ℤ)) % (size : ℤ)).toNat
  let y2 := (((y1 : ℤ) + d.2 + (size : ℤ)) % (size : ℤ)).toNat
  let j := y2 * size + x2
  if i = j then pix
  else
    let v1 := pix i
    let v2 := pix j
    let diff := ((v1 : ℤ) - (v2 : ℤ)).natAbs
    if 64 < diff ∧ diff < 192 then
      fun k => if k = i then v2 else if k = j then v1 else pix k
    else pix

/-- generateBlueNoise(size): the R2-seeded rank pattern followed by 8
refinement passes over all pixels. -/
def generateBlueNoise (off : ℕ → ℕ → ℤ × ℤ) (size : ℕ) : ℕ → ℕ :=
  (List.range 8).foldl
    (fun pix pass => (List.range (size * size)).foldl (swapAt size off pass) pix)
    (blueInit size)

/-- Browser entropy a script could consume (Math.random draws and the
like).  Neither texture generator reads any of it; the run functions
below thread it through to state that. -/
def Entropy : Type := ℕ → ℚ

/-- A run of generateBlueNoise in a browser environment with entropy
source `e`.  The source consults no entropy (no Math.random, Date.now,
crypto), so `e` is never used. -/
def generateBlueNoiseRun (_e : Entropy) (off : ℕ → ℕ → ℤ × ℤ) (size : ℕ) : ℕ → ℕ :=
  generateBlueNoise off size

/-- A run of generateClusteredDot in a browser environment with entropy
source `e`; again the source consults no entropy. -/
def generateClusteredDotRun (_e : Entropy) (size : ℕ) : ℕ → ℕ :=
  generateClusteredDot size

-- Helper lemmas

theorem foldl_preserve {α β : Type} {P : α → Prop} {f : α → β → α}
    (h : ∀ a b, P a → P (f a b)) :
    ∀ (l : List β) (a : α), P a → P (l.foldl f a) := by
  intro l
  induction l with
  | nil => intro a ha; exact ha
  | cons b t ih => intro a ha; exact ih (f a b) (h a b ha)

theorem rank_byte_le (n k : ℕ) (hk : k ≤ n) : 255 * k / n ≤ 255 := by
  rcases Nat.eq_zero_or_pos n with h0 | hpos
  · simp [h0]
  · calc 255 * k / n ≤ 255 * n / n := Nat.div_le_div_right (Nat.mul_le_mul_left _ hk)
    _ = 255 := Nat.mul_div_cancel 255 hpos

theorem clusterOrder_length (size : ℕ) : (clusterOrder size).length = size * size := by
  have h := (List.perm_insertionSort
    (fun i j => distKey size i ≤ distKey size j) (List.range (size * size))).length_eq
  simp only [List.length_range] at h
  exact h

theorem blueOrder_length (size : ℕ) : (blueOrder size).length = size * size := by
  have h := (List.perm_insertionSort
    (fun i j => r2Val size i ≤ r2Val size j) (List.range (size * size))).length_eq
  simp only [List.length_range] at h
  exact h

theorem generateClusteredDot_le (size idx : ℕ) : generateClusteredDot size idx ≤ 255 := by
  refine rank_byte_le _ _ ?_
  have h := List.indexOf_le_length (a := idx) (l := clusterOrder size)
  simpa [clusterOrder_length] using h

theorem blueInit_le (size : ℕ) : ∀ idx, blueInit size idx ≤ 255 := by
  intro idx
  refine rank_byte_le _ _ ?_
  have h := List.indexOf_le_length (a := idx) (l := blueOrder size)
  simpa [blueOrder_length] using h

theorem swapAt_le (size : ℕ) (off : ℕ → ℕ → ℤ × ℤ) (pass : ℕ)
    (pix : ℕ → ℕ) (i : ℕ) (h : ∀ m, pix m ≤ 255) :
    ∀ m, swapAt size off pass pix i m ≤ 255 := by
  intro m
  unfold swapAt
  dsimp only
  split
  · exact h m
  · split
    · dsimp only
      split
      · exact h _
      · split
        · exact h _
        · exact h m
    · exact h m

theorem generateBlueNoise_le (off : ℕ → ℕ → ℤ × ℤ) (size : ℕ) :
    ∀ idx, generateBlueNoise off size idx ≤ 255 := by
  unfold generateBlueNoise
  refine foldl_preserve (P := fun pix : ℕ → ℕ => ∀ m, pix m ≤ 255) ?_ _ _ (blueInit_le size)
  intro pix pass hp
  exact foldl_preserve (P := fun pix : ℕ → ℕ => ∀ m, pix m ≤ 255)
    (fun p i hpi => swapAt_le size off pass p i hpi) _ pix hp

-- The fragment-shader dither dispatch

/-- An RGB color (each channel a rational standing for a GLSL float). -/
structure Rgb where
  r : ℚ
  g : ℚ
  b : ℚ
deriving DecidableEq

/-- gray = dot(color.rgb, vec3(0.299, 0.587, 0.114)). -/
def grayDot (c : Rgb) : ℚ := 0.299 * c.r + 0.587 * c.g + 0.114 * c.b

/-- The dither dispatch shared by fsSource and fsSourceImage: given the
mode, the pixel, and the incoming grayscale value, each branch adjusts
the grayscale (five modes apply a clamped gain/bias, the others leave it
alone) and selects the threshold of its pattern.  Returns (adjusted
gray, threshold).  `off` feeds the blue-noise texture (see swapAt). -/
def ditherDispatch (off : ℕ → ℕ → ℤ × ℤ) (mode px py : ℕ) (gray : ℚ) : ℚ × ℚ :=
  if mode = 7 then
    (clamp01 (gray * 1.08 - 0.02), texSample (generateClusteredDot 16) 16 px py)
  else if mode = 6 then
    (clamp01 (gray * 1.1 - 0.03), texSample (fun i => clustered8Bytes.getD i 0) 8 px py)
  else if mode = 5 then
    (clamp01 (gray * 1.15 - 0.05), clustered4Threshold px py)
  else if mode = 4 then
    (clamp01 (gray * 1.1), clusteredThreshold px py)
  else if mode = 3 then
    (gray, texSample (generateBlueNoise off 64) 64 px py)
  else if mode = 2 then
    (gray, hashGL ((px : ℚ) + 0.5) ((py : ℚ) + 0.5))
  else if mode = 1 then
    (clamp01 (gray * 1.2 - 0.1), atkinsonThreshold px py)
  else
    (gray, texSample (fun i => bayerBytes.getD i 0) 8 px py)

/-- The scroll-driven fade of fsSource main: screenY = fragCoord.y /
resolution.y, fadeHeight = mix(0.4, 0.85, scroll), fade =
smoothstep(0, fadeHeight, screenY) * mix(1.0, 0.7, scroll * 0.5). -/
def headerFade (resY scroll : ℚ) (py : ℕ) : ℚ :=
  let screenY := ((py : ℚ) + 0.5) / resY
  let fadeHeight := mixQ 0.4 0.85 scroll
  smoothstepQ 0 fadeHeight screenY * mixQ 1 0.7 (scroll * 0.5)

/-- The whole main() of the header fragment shader fsSource: grayscale
from the video texel, scroll fade, dither dispatch, then
dithered = step(threshold + 0.1, gray) and
gl_FragColor = mix(bgColor, fgColor, dithered). -/
def headerFragment (off : ℕ → ℕ → ℤ × ℤ) (mode px py : ℕ) (tex : Rgb)
    (resY scroll : ℚ) (bg fg : Rgb) : Rgb :=
  let gray := grayDot tex * headerFade resY scroll py
  let gt := ditherDispatch off mode px py gray
  let dithered := stepQ (gt.2 + 0.1) gt.1
  ⟨mixQ bg.r fg.r dithered, mixQ bg.g fg.g dithered, mixQ bg.b fg.b dithered⟩

/-- animatedNoise(p, t) of fsSourceImage: blend hash(p + floor(t)) into
hash(p + floor(t) + 1.0) by smoothstep of fract(t) (adding a scalar to a
vec2 adds it to both components). -/
def animatedNoiseQ (x y t : ℚ) : ℚ :=
  let n1 := hashGL (x + (⌊t⌋ : ℚ)) (y + (⌊t⌋ : ℚ))
  let n2 := hashGL (x + (⌊t⌋ : ℚ) + 1) (y + (⌊t⌋ : ℚ) + 1)
  mixQ n1 n2 (smoothstepQ 0 1 (fractGL t))

/-- The jagged border fade of fsSourceImage main: edgeNoise =
hash(fragCoord * 0.5) * 0.15 and the product of the four edge
smoothsteps (left, right, bottom, top). -/
def imageFade (resX resY : ℚ) (px py : ℕ) : ℚ :=
  let uvx := ((px : ℚ) + 0.5) / resX
  let uvy := ((py : ℚ) + 0.5) / resY
  let edgeNoise := hashGL (((px : ℚ) + 0.5) * 0.5) (((py : ℚ) + 0.5) * 0.5) * 0.15
  smoothstepQ 0 (0.1 + edgeNoise) uvx * smoothstepQ 0 (0.1 + edgeNoise) (1 - uvx) *
    smoothstepQ 0 (0.1 + edgeNoise) uvy * smoothstepQ 0 (0.1 + edgeNoise) (1 - uvy)

/-- The animated addend fsSourceImage puts on top of threshold + 0.1:
(noise * 0.15 + flicker) * effectIntensity, with noise =
animatedNoise(fragCoord * 0.15, t) - 0.5, flicker = 0.08 * sin(t * 2.0 +
hash(fragCoord * 0.2) * 6.28) and effectIntensity =
smoothstep(0.05, 0.3, gray).  The sine value is transcendental, so the
embedding takes it as the parameter sinv (in [-1, 1] for the real
sine). -/
def imageAnimTerm (px py : ℕ) (t sinv adjGray : ℚ) : ℚ :=
  let noise := animatedNoiseQ (((px : ℚ) + 0.5) * 0.15) (((py : ℚ) + 0.5) * 0.15) t - 0.5
  let flicker := 0.08 * sinv
  let intensity := smoothstepQ 0.05 0.3 adjGray
  (noise * 0.15 + flicker) * intensity

/-- The whole main() of the per-image fragment shader fsSourceImage:
grayscale, light-mode inversion by u_invert, jagged border fade, dither
dispatch, then dithered = step(threshold + 0.1 + animated term, gray)
and mix(bgColor, fgColor, dithered). -/
def imageFragment (off : ℕ → ℕ → ℤ × ℤ) (mode px py : ℕ) (tex : Rgb)
    (resX resY t invertU sinv : ℚ) (bg fg : Rgb) : Rgb :=
  let gray0 := grayDot tex
  let gray1 := mixQ gray0 (1 - gray0) invertU
  let gray := gray1 * imageFade resX resY px py
  let gt := ditherDispatch off mode px py gray
  let animatedThreshold := gt.2 + 0.1 + imageAnimTerm px py t sinv gt.1
  let dithered := stepQ animatedThreshold gt.1
  ⟨mixQ bg.r fg.r dithered, mixQ bg.g fg.g dithered, mixQ bg.b fg.b dithered⟩

-- Hex color parsing (parseHexColor and hexToRgb)

/-- The whitespace characters JS String.prototype.trim strips that can
occur in CSS custom property values (space, tab, newline, carriage
return). -/
def isJsSpace (c : Char) : Bool :=
  c == ' ' || c == '\t' || c == '\n' || c == '\r'

/-- JS s.trim(): drop whitespace from both ends. -/
def jsTrim (cs : List Char) : List Char :=
  ((cs.dropWhile isJsSpace).reverse.dropWhile isJsSpace).reverse

/-- JS s.replace(quoted hash, empty string): a string pattern replaces
only the first occurrence. -/
def removeFirstHash : List Char → List Char
  | [] => []
  | c :: rest => if c = '#' then rest else c :: removeFirstHash rest

/-- Value of one hexadecimal digit (0-9, a-f, A-F). -/
def hexDigitVal (c : Char) : Option ℕ :=
  if 48 ≤ c.toNat ∧ c.toNat ≤ 57 then some (c.toNat - 48)
  else if 97 ≤ c.toNat ∧ c.toNat ≤ 102 then some (c.toNat - 87)
  else if 65 ≤ c.toNat ∧ c.toNat ≤ 70 then some (c.toNat - 55)
  else none

/-- Accumulate the maximal leading run of hex digits. -/
def parseIntHexAux : List Char → ℕ → ℕ
  | [], acc => acc
  | c :: rest, acc =>
    match hexDigitVal c with
    | some d => parseIntHexAux rest (acc * 16 + d)
    | none => acc

/-- JS parseInt(s, 16) on the two-character slices these parsers feed
it: the value of the maximal leading run of hex digits, NaN (none) when
the first character is not a hex digit.  (The slices come from an
already trimmed string, so the whitespace/sign/0x preludes of full
parseInt cannot occur here.) -/
def parseIntHex (cs : List Char) : Option ℕ :=
  match cs with
  | [] => none
  | c :: _ =>
    match hexDigitVal c with
    | none => none
    | some _ => some (parseIntHexAux cs 0)

/-- The shorthand expansion step shared by parseHexColor and hexToRgb:
a 3-character string has each character doubled. -/
def hexExpand (h : List Char) : List Char :=
  if h.length = 3 then
    match h with
    | [c0, c1, c2] => [c0, c0, c1, c1, c2, c2]
    | _ => h
  else h

/-- parseHexColor(hex) of the two WebGL script sections: trim, strip the
first hash, expand 3-digit shorthand, then parse the three 2-character
slices and scale each to [0, 1] by / 255.  A NaN component is none. -/
def parseHexColor (s : List Char) : Option ℚ × Option ℚ × Option ℚ :=
  let h := hexExpand (removeFirstHash (jsTrim s))
  ((parseIntHex ((h.drop 0).take 2)).map (fun n => (n : ℚ) / 255),
   (parseIntHex ((h.drop 2).take 2)).map (fun n => (n : ℚ) / 255),
   (parseIntHex ((h.drop 4).take 2)).map (fun n => (n : ℚ) / 255))

/-- hexToRgb(hex) of the background-warmth section: the same pipeline
but returning the raw 0-255 integers. -/
def hexToRgb (s : List Char) : Option ℕ × Option ℕ × Option ℕ :=
  let h := hexExpand (removeFirstHash (jsTrim s))
  (parseIntHex ((h.drop 0).take 2),
   parseIntHex ((h.drop 2).take 2),
   parseIntHex ((h.drop 4).take 2))

-- Scroll-progress easing

/-- The scroll easing shared by updateWarmth, updateScrollProgress and
updateScroll: progress = Math.min(1.0, scrollY / scrollDistance)
followed by progress * progress * (3 - 2 * progress). -/
def easedScrollProgress (scrollDistance scrollY : ℚ) : ℚ :=
  let p := min 1 (scrollY / scrollDistance)
  p * p * (3 - 2 * p)

-- Dither mode selection from the URL query parameter

/-- A JavaScript value as far as the ditherModes lookup can produce one:
undefined, a number from the table, an inherited function, or an
inherited object. -/
inductive JsValue
  | undefined
  | num (n : ℕ)
  | jsFunction (name : String)
  | jsObject (name : String)
deriving DecidableEq

/-- The own properties of the object literal ditherModes = { gaussian: 0,
atkinson: 1, noise: 2, bluenoise: 3, cluster2: 4, cluster4: 5,
cluster8: 6, cluster16: 7 } (identical in both script sections). -/
def ditherModesOwn : List (String × ℕ) :=
  [("gaussian", 0), ("atkinson", 1), ("noise", 2), ("bluenoise", 3),
   ("cluster2", 4), ("cluster4", 5), ("cluster8", 6), ("cluster16", 7)]

/-- Property names every plain object literal inherits from
Object.prototype; indexing ditherModes with one of these yields the
inherited member, not undefined. -/
def objectProtoKeys : List String :=
  ["constructor", "hasOwnProperty", "isPrototypeOf", "propertyIsEnumerable",
   "toLocaleString", "toString", "valueOf", "__defineGetter__",
   "__defineSetter__", "__lookupGetter__", "__lookupSetter__", "__proto__"]

/-- JS property read ditherModes[key]: the own property when present,
else the member inherited from Object.prototype (the accessor __proto__
yields the prototype object, the rest are functions), else undefined. -/
def jsGetDitherModes (key : String) : JsValue :=
  match ditherModesOwn.find? (fun p => p.1 == key) with
  | some p => .num p.2
  | none =>
    if key ∈ objectProtoKeys then
      if key = "__proto__" then .jsObject "Object.prototype" else .jsFunction key
    else .undefined

/-- ditherModes[ditherParam] ?? ditherModes[DEFAULT_DITHER]: the nullish
fallback fires only when the lookup is undefined (it is never null).
urlParams.get returns null when the parameter is absent, and a null key
is converted to the property name "null". -/
def selectDitherMode (defaultName : String) (param : Option String) : JsValue :=
  let v := match param with
    | none => jsGetDitherModes "null"
    | some s => jsGetDitherModes s
  match v with
  | .undefined => jsGetDitherModes defaultName
  | w => w

-- Lifecycle models (header surface and per-image surface)

/-- The six document/window listener slots the header surface registers
(click, touchstart, keydown and scroll on document for
onFirstInteraction, resize and scroll on window). -/
inductive EvKind
  | click
  | touchstart
  | keydown
  | docScroll
  | winResize
  | winScroll
deriving DecidableEq

/-- State of the header script section plus the browser resources its
surfaces can hold.  Surfaces are identified by the number they were
created with; a listener registration (k, sid) is the listener of kind k
whose handler closure belongs to surface sid (removeEventListener
removes by handler identity).  `frames` holds the surfaces with a
pending requestAnimationFrame callback (each surface keeps at most one
pending, the one stored in currentState.animationId), `observers` the
connected dark-mode MutationObservers, `contexts` the WebGL contexts
not yet released through WEBGL_lose_context. -/
structure HeaderModel where
  currentState : Option ℕ
  frames : List ℕ
  listeners : List (EvKind × ℕ)
  observers : List ℕ
  contexts : List ℕ
  nextId : ℕ
deriving DecidableEq

/-- Every surface that still owns some browser resource. -/
def headerSids (m : HeaderModel) : List ℕ :=
  m.frames ++ m.listeners.map Prod.snd ++ m.observers ++ m.contexts

/-- The header cleanup(): a no-op when currentState is null; otherwise
cancel the pending animation frame, remove the six document/window
listeners of the current surface, disconnect its dark-mode observer,
lose its WebGL context, and null currentState.  Every step is guarded
in the source (cancelAnimationFrame only when animationId is set,
disconnect only when the observer exists, loseContext only when the
extension was available), so the function is total and never throws. -/
def cleanupHeader (m : HeaderModel) : HeaderModel :=
  match m.currentState with
  | none => m
  | some sid =>
    { currentState := none
      frames := m.frames.filter (fun s => s ≠ sid)
      listeners := m.listeners.filter (fun e => e.2 ≠ sid)
      observers := m.observers.filter (fun s => s ≠ sid)
      contexts := m.contexts.filter (fun s => s ≠ sid)
      nextId := m.nextId }

/-- The six listener registrations of a fresh header surface. -/
def sixListeners (sid : ℕ) : List (EvKind × ℕ) :=
  [(.click, sid), (.touchstart, sid), (.keydown, sid), (.docScroll, sid),
   (.winResize, sid), (.winScroll, sid)]

/-- The header init(): always run cleanup first; return early (keeping
the cleaned state) when the page has no header canvas or WebGL is
unavailable; otherwise create a fresh surface owning its context,
observer and listeners. -/
def initHeader (canvasPresent glOk : Bool) (m : HeaderModel) : HeaderModel :=
  let c := cleanupHeader m
  if canvasPresent then
    if glOk then
      { currentState := some c.nextId
        frames := c.frames
        listeners := sixListeners c.nextId ++ c.listeners
        observers := c.nextId :: c.observers
        contexts := c.nextId :: c.contexts
        nextId := c.nextId + 1 }
    else c
  else c

/-- The resource-ownership invariant of the header section: every
browser resource is owned by the surface currentState points at (in
particular, a null currentState means no resources at all). -/
def HeaderInv (m : HeaderModel) : Prop :=
  ∀ sid ∈ headerSids m, m.currentState = some sid

/-- A surface is live on the header canvas when it is the current
surface or still owns some resource. -/
def liveHeader (m : HeaderModel) (sid : ℕ) : Prop :=
  m.currentState = some sid ∨ sid ∈ headerSids m

/-- State of one per-image dithered surface created by
initDitheredImage: the didCleanup latch, the pending animation frame,
the intersection observer, the dark-mode observer, the two window
listeners, the WebGL context, and the __darkDitherCleanup property
stored on the canvas. -/
structure ImageModel where
  didCleanup : Bool
  animationId : Option ℕ
  observerOn : Bool
  darkObserverOn : Bool
  winResizeOn : Bool
  winScrollOn : Bool
  contextLive : Bool
  cleanupPropOn : Bool
deriving DecidableEq

/-- The per-image cleanup(): return immediately when didCleanup is
already set; otherwise set it, cancel the pending frame, disconnect both
observers, remove both window listeners, lose the context and delete
the canvas cleanup property.  All steps are guarded, so the function is
total and never throws. -/
def cleanupImage (s : ImageModel) : ImageModel :=
  if s.didCleanup then s
  else
    { didCleanup := true
      animationId := none
      observerOn := false
      darkObserverOn := false
      winResizeOn := false
      winScrollOn := false
      contextLive := false
      cleanupPropOn := false }

/-- No animation callback, listener, observer, context or canvas
property of the image surface remains active. -/
def imageInactive (s : ImageModel) : Prop :=
  s.animationId = none ∧ s.observerOn = false ∧ s.darkObserverOn = false ∧
    s.winResizeOn = false ∧ s.winScrollOn = false ∧ s.contextLive = false ∧
    s.cleanupPropOn = false

-- More helper lemmas

theorem fractGL_nonneg (x : ℚ) : 0 ≤ fractGL x := Int.fract_nonneg x

theorem fractGL_lt_one (x : ℚ) : fractGL x < 1 := Int.fract_lt_one x

theorem clamp01_le_one (x : ℚ) : clamp01 x ≤ 1 := min_le_right _ _

theorem clamp01_nonneg (x : ℚ) : 0 ≤ clamp01 x :=
  le_min (le_max_right _ _) (by norm_num)

theorem mixQ_zero (x y : ℚ) : mixQ x y 0 = x := by unfold mixQ; ring

theorem mixQ_one (x y : ℚ) : mixQ x y 1 = y := by unfold mixQ; ring

theorem getD_le_of_all {l : List ℕ} {c : ℕ} (hb : ∀ x ∈ l, x ≤ c) (i : ℕ) :
    l.getD i 0 ≤ c := by
  by_cases hi : i < l.length
  · rw [List.getD_eq_getElem l 0 hi]
    exact hb _ (List.getElem_mem hi)
  · rw [List.getD_eq_default l 0 (le_of_not_lt hi)]
    exact Nat.zero_le c

theorem texSample_bounds (tex : ℕ → ℕ) (h : ∀ m, tex m ≤ 255) (size px py : ℕ) :
    0 ≤ texSample tex size px py ∧ texSample tex size px py ≤ 1 := by
  unfold texSample
  constructor
  · positivity
  · rw [div_le_one (by norm_num)]
    exact_mod_cast h _


-- Claim theorems

/-- Claim C2: threshold-texture generation is deterministic.  Two runs
of generateBlueNoise under arbitrary browser entropy (which the source
never reads) produce identical byte maps, and likewise for
generateClusteredDot; moreover every produced cell is a valid byte, so
the Uint8Array holds exactly these values and outputs are byte-identical
across runs. -/
theorem generators_deterministic (e1 e2 : Entropy) (off : ℕ → ℕ → ℤ × ℤ) (size : ℕ) :
    generateBlueNoiseRun e1 off size = generateBlueNoiseRun e2 off size ∧
    generateClusteredDotRun e1 size = generateClusteredDotRun e2 size ∧
    (∀ idx, generateBlueNoiseRun e1 off size idx < 256 ∧
      generateClusteredDotRun e1 size idx < 256) := by
  refine ⟨rfl, rfl, fun idx => ⟨?_, ?_⟩⟩
  · exact Nat.lt_succ_of_le (generateBlueNoise_le off size idx)
  · exact Nat.lt_succ_of_le (generateClusteredDot_le size idx)

theorem smoothstep_cubic_mono {a b : ℚ} (ha : 0 ≤ a) (hab : a ≤ b) (hb : b ≤ 1) :
    a * a * (3 - 2 * a) ≤ b * b * (3 - 2 * b) := by
  nlinarith [sq_nonneg (a - b), sq_nonneg (a + b), mul_nonneg ha (sub_nonneg.2 hab),
    mul_nonneg (mul_nonneg ha ha) (sub_nonneg.2 hab),
    mul_nonneg ha (mul_nonneg (sub_nonneg.2 hab) (sub_nonneg.2 hab))]

/-- Claim C7: the scroll-progress easing p = min(1, scrollY / dist)
followed by p * p * (3 - 2 * p) is monotonically non-decreasing in the
scroll offset, and its value lies in [0, 1] for every non-negative
offset, whenever the scroll distance is positive. -/
theorem easedScrollProgress_mono_bounded (d y1 y2 : ℚ) (hd : 0 < d)
    (hy1 : 0 ≤ y1) (h12 : y1 ≤ y2) :
    easedScrollProgress d y1 ≤ easedScrollProgress d y2 ∧
    0 ≤ easedScrollProgress d y1 ∧ easedScrollProgress d y1 ≤ 1 := by
  have hp1234 : ∀ y : ℚ, 0 ≤ y → 0 ≤ min 1 (y / d) ∧ min 1 (y / d) ≤ 1 := by
    intro y hy
    exact ⟨le_min (by norm_num) (div_nonneg hy hd.le), min_le_left _ _⟩
  obtain ⟨hp1, hp1'⟩ := hp1234 y1 hy1
  obtain ⟨hp2, hp2'⟩ := hp1234 y2 (hy1.trans h12)
  have hdiv : y1 / d ≤ y2 / d := by
    apply div_le_div_of_nonneg_right h12 hd.le
  have hmm : min 1 (y1 / d) ≤ min 1 (y2 / d) := min_le_min le_rfl hdiv
  unfold easedScrollProgress
  refine ⟨smoothstep_cubic_mono hp1 hmm hp2', ?_, ?_⟩
  · have h3 : (1 : ℚ) ≤ 3 - 2 * min 1 (y1 / d) := by nlinarith
    nlinarith
  · nlinarith [sq_nonneg (1 - min 1 (y1 / d))]


/-- Witness for C7 at distance 1 and offsets 0 and 2. -/
theorem easedScrollProgress_mono_bounded_witness :
    (0 : ℚ) < 1 ∧ (0 : ℚ) ≤ 0 ∧ (0 : ℚ) ≤ 2 ∧
    (easedScrollProgress 1 0 ≤ easedScrollProgress 1 2 ∧
      0 ≤ easedScrollProgress 1 0 ∧ easedScrollProgress 1 0 ≤ 1) :=
  ⟨by norm_num, by norm_num, by norm_num,
    easedScrollProgress_mono_bounded 1 0 2 (by norm_num) (by norm_num) (by norm_num)⟩

/-- Claim C10: the two hex parsers agree up to scale: every component of
parseHexColor is the corresponding component of hexToRgb divided by 255
(including agreement of the NaN cases, modelled as none). -/
theorem parseHexColor_refines_hexToRgb (s : List Char) :
    parseHexColor s =
      (((hexToRgb s).1).map (fun n => (n : ℚ) / 255),
       ((hexToRgb s).2.1).map (fun n => (n : ℚ) / 255),
       ((hexToRgb s).2.2).map (fun n => (n : ℚ) / 255)) := rfl

theorem charNe_of_toNat {c d : Char} (h : c.toNat ≠ d.toNat) : c ≠ d :=
  fun e => h (by rw [e])

theorem hexDigit_plain {c : Char} (h : (hexDigitVal c).isSome) :
    isJsSpace c = false ∧ c ≠ '#' := by
  have hrange : (48 ≤ c.toNat ∧ c.toNat ≤ 57) ∨ (97 ≤ c.toNat ∧ c.toNat ≤ 102) ∨
      (65 ≤ c.toNat ∧ c.toNat ≤ 70) := by
    unfold hexDigitVal at h
    split_ifs at h with h1 h2 h3
    · exact Or.inl h1
    · exact Or.inr (Or.inl h2)
    · exact Or.inr (Or.inr h3)
    · simp at h
  have hsp : c.toNat ≠ 32 ∧ c.toNat ≠ 9 ∧ c.toNat ≠ 10 ∧ c.toNat ≠ 13 ∧ c.toNat ≠ 35 := by
    rcases hrange with ⟨h1, h2⟩ | ⟨h1, h2⟩ | ⟨h1, h2⟩ <;> omega
  refine ⟨?_, charNe_of_toNat (show c.toNat ≠ ('#').toNat from hsp.2.2.2.2)⟩
  simp only [isJsSpace, Bool.or_eq_false_iff, beq_eq_false_iff_ne]
  exact ⟨⟨⟨charNe_of_toNat hsp.1, charNe_of_toNat hsp.2.1⟩,
    charNe_of_toNat hsp.2.2.1⟩, charNe_of_toNat hsp.2.2.2.1⟩

theorem hexPipeline_three {a b c : Char}
    (ha : (hexDigitVal a).isSome) (hb : (hexDigitVal b).isSome)
    (hc : (hexDigitVal c).isSome) :
    hexExpand (removeFirstHash (jsTrim [a, b, c])) = [a, a, b, b, c, c] ∧
    hexExpand (removeFirstHash (jsTrim [a, a, b, b, c, c])) = [a, a, b, b, c, c] := by
  obtain ⟨has, hah⟩ := hexDigit_plain ha
  obtain ⟨hbs, hbh⟩ := hexDigit_plain hb
  obtain ⟨hcs, hch⟩ := hexDigit_plain hc
  constructor
  · have ht : jsTrim [a, b, c] = [a, b, c] := by
      simp [jsTrim, List.dropWhile_cons, has, hcs]
    rw [ht]
    have hr : removeFirstHash [a, b, c] = [a, b, c] := by
      simp [removeFirstHash, hah, hbh, hch]
    rw [hr]
    simp [hexExpand]
  · have ht : jsTrim [a, a, b, b, c, c] = [a, a, b, b, c, c] := by
      simp [jsTrim, List.dropWhile_cons, has, hcs]
    rw [ht]
    have hr : removeFirstHash [a, a, b, b, c, c] = [a, a, b, b, c, c] := by
      simp [removeFirstHash, hah, hbh, hch]
    rw [hr]
    simp [hexExpand]

/-- Claim C8: hex color parsing round-trips across the shorthand
expansion: a 3-digit hex color and its 6-digit expansion obtained by
doubling each digit parse to the same RGB triple, for parseHexColor and
for hexToRgb alike. -/
theorem hex_shorthand_roundtrip (a b c : Char)
    (ha : (hexDigitVal a).isSome) (hb : (hexDigitVal b).isSome)
    (hc : (hexDigitVal c).isSome) :
    parseHexColor [a, b, c] = parseHexColor [a, a, b, b, c, c] ∧
    hexToRgb [a, b, c] = hexToRgb [a, a, b, b, c, c] := by
  obtain ⟨h1, h2⟩ := hexPipeline_three ha hb hc
  constructor
  · simp only [parseHexColor]
    rw [h1, h2]
  · simp only [hexToRgb]
    rw [h1, h2]

/-- Witness for C8 at the hex digits 1, a, F. -/
theorem hex_shorthand_roundtrip_witness :
    ((hexDigitVal '1').isSome ∧ (hexDigitVal 'a').isSome ∧ (hexDigitVal 'F').isSome) ∧
    (parseHexColor ['1', 'a', 'F'] = parseHexColor ['1', '1', 'a', 'a', 'F', 'F'] ∧
      hexToRgb ['1', 'a', 'F'] = hexToRgb ['1', '1', 'a', 'a', 'F', 'F']) :=
  ⟨⟨by decide, by decide, by decide⟩,
    hex_shorthand_roundtrip '1' 'a' 'F' (by decide) (by decide) (by decide)⟩

theorem cleanupHeader_currentState (m : HeaderModel) :
    (cleanupHeader m).currentState = none := by
  cases h : m.currentState with
  | none => simp [cleanupHeader, h]
  | some cur => simp [cleanupHeader, h]

theorem cleanupHeader_none {m : HeaderModel} (h : m.currentState = none) :
    cleanupHeader m = m := by
  simp [cleanupHeader, h]

theorem cleanupHeader_empty {m : HeaderModel} (hm : HeaderInv m) :
    ∀ sid, sid ∉ headerSids (cleanupHeader m) := by
  intro sid hmem
  cases h : m.currentState with
  | none =>
    rw [cleanupHeader_none h] at hmem
    have hcur := hm sid hmem
    rw [h] at hcur
    exact Option.noConfusion hcur
  | some cur =>
    simp only [cleanupHeader, h, headerSids, List.mem_append, List.mem_filter,
      List.mem_map, decide_eq_true_eq] at hmem
    have hin : sid ∈ headerSids m ∧ ¬ sid = cur := by
      simp only [headerSids, List.mem_append, List.mem_map]
      rcases hmem with ((⟨hi, hd⟩ | ⟨p, ⟨hi, hd⟩, he⟩) | ⟨hi, hd⟩) | ⟨hi, hd⟩
      · exact ⟨Or.inl (Or.inl (Or.inl hi)), hd⟩
      · exact ⟨Or.inl (Or.inl (Or.inr ⟨p, hi, he⟩)), he ▸ hd⟩
      · exact ⟨Or.inl (Or.inr hi), hd⟩
      · exact ⟨Or.inr hi, hd⟩
    have hcur := hm sid hin.1
    rw [h] at hcur
    exact hin.2 (Option.some.inj hcur).symm

/-- The empty header state before any initialization. -/
def headerModel0 : HeaderModel :=
  { currentState := none, frames := [], listeners := [], observers := [],
    contexts := [], nextId := 0 }

/-- A freshly created per-image surface (didCleanup still false). -/
def imageModel0 : ImageModel :=
  { didCleanup := false, animationId := some 7, observerOn := true,
    darkObserverOn := true, winResizeOn := true, winScrollOn := true,
    contextLive := true, cleanupPropOn := true }

/-- Claim C6: teardown is idempotent and complete.  For the header
surface (guarded by currentState being nulled) and the per-image surface
(guarded by the didCleanup latch), a second cleanup invocation after a
first is a no-op producing the same state (and both functions are total,
so no error is raised), and after cleanup no animation callback,
listener, observer, context or canvas property registered by the
surface remains active.  The hypotheses say the state is consistent: all
header resources belong to the current surface, and an image surface
whose latch is already set holds no resources. -/
theorem cleanup_idempotent (m : HeaderModel) (s : ImageModel)
    (hm : HeaderInv m) (hs : s.didCleanup = true → imageInactive s) :
    cleanupHeader (cleanupHeader m) = cleanupHeader m ∧
    (∀ sid, sid ∉ headerSids (cleanupHeader m)) ∧
    (cleanupHeader m).currentState = none ∧
    cleanupImage (cleanupImage s) = cleanupImage s ∧
    imageInactive (cleanupImage s) := by
  refine ⟨?_, cleanupHeader_empty hm, cleanupHeader_currentState m, ?_, ?_⟩
  · exact cleanupHeader_none (cleanupHeader_currentState m)
  · by_cases hd : s.didCleanup
    · simp [cleanupImage, hd]
    · simp [cleanupImage, hd]
  · by_cases hd : s.didCleanup
    · simp only [cleanupImage, hd, if_true]
      exact hs hd
    · simp [cleanupImage, hd, imageInactive]

/-- Witness for C6: the empty header state and a live image surface. -/
theorem cleanup_idempotent_witness :
    cleanupHeader (cleanupHeader headerModel0) = cleanupHeader headerModel0 ∧
    (∀ sid, sid ∉ headerSids (cleanupHeader headerModel0)) ∧
    (cleanupHeader headerModel0).currentState = none ∧
    cleanupImage (cleanupImage imageModel0) = cleanupImage imageModel0 ∧
    imageInactive (cleanupImage imageModel0) :=
  cleanup_idempotent headerModel0 imageModel0
    (fun sid h => absurd h (by simp [headerModel0, headerSids]))
    (fun h => absurd h (by simp [imageModel0]))

theorem mem_headerSids_frames {m : HeaderModel} {s : ℕ} (h : s ∈ m.frames) :
    s ∈ headerSids m :=
  List.mem_append.2 (Or.inl (List.mem_append.2 (Or.inl (List.mem_append.2 (Or.inl h)))))

theorem mem_headerSids_listeners {m : HeaderModel} {s : ℕ} {p : EvKind × ℕ}
    (h : p ∈ m.listeners) (he : p.2 = s) : s ∈ headerSids m :=
  List.mem_append.2 (Or.inl (List.mem_append.2 (Or.inl (List.mem_append.2
    (Or.inr (List.mem_map.2 ⟨p, h, he⟩))))))

theorem mem_headerSids_observers {m : HeaderModel} {s : ℕ} (h : s ∈ m.observers) :
    s ∈ headerSids m :=
  List.mem_append.2 (Or.inl (List.mem_append.2 (Or.inr h)))

theorem mem_headerSids_contexts {m : HeaderModel} {s : ℕ} (h : s ∈ m.contexts) :
    s ∈ headerSids m :=
  List.mem_append.2 (Or.inr h)

/-- Claim C5: at most one live render surface per canvas.  From any
consistent state, re-entering init (which always runs cleanup first)
leaves a state in which any two surfaces live on the header canvas are
equal, whether or not the canvas and a WebGL context were available. -/
theorem init_single_surface (m : HeaderModel) (cv gw : Bool) (s1 s2 : ℕ)
    (hm : HeaderInv m)
    (h1 : liveHeader (initHeader cv gw m) s1)
    (h2 : liveHeader (initHeader cv gw m) s2) : s1 = s2 := by
  have hclean := cleanupHeader_empty hm
  have hkey : ∀ s, liveHeader (initHeader cv gw m) s → s = (cleanupHeader m).nextId := by
    intro s hs
    cases cv with
    | false =>
      simp only [initHeader, Bool.false_eq_true, if_false] at hs
      rcases hs with hcur | hmem
      · rw [cleanupHeader_currentState m] at hcur
        exact Option.noConfusion hcur
      · exact absurd hmem (hclean s)
    | true =>
      cases gw with
      | false =>
        simp only [initHeader, Bool.false_eq_true, if_true, if_false] at hs
        rcases hs with hcur | hmem
        · rw [cleanupHeader_currentState m] at hcur
          exact Option.noConfusion hcur
        · exact absurd hmem (hclean s)
      | true =>
        simp only [initHeader, if_true] at hs
        rcases hs with hcur | hmem
        · have hcur2 : some ((cleanupHeader m).nextId) = some s := hcur
          exact (Option.some.inj hcur2).symm
        · have hmem2 : s ∈ ((cleanupHeader m).frames ++
              (sixListeners (cleanupHeader m).nextId ++
                (cleanupHeader m).listeners).map Prod.snd ++
              ((cleanupHeader m).nextId :: (cleanupHeader m).observers) ++
              ((cleanupHeader m).nextId :: (cleanupHeader m).contexts)) := hmem
          rcases List.mem_append.1 hmem2 with h3 | hctx
          · rcases List.mem_append.1 h3 with h4 | hobs
            · rcases List.mem_append.1 h4 with hf | hmap
              · exact absurd (mem_headerSids_frames hf) (hclean s)
              · rcases List.mem_map.1 hmap with ⟨p, hp, he⟩
                rcases List.mem_append.1 hp with hp6 | hpold
                · have hp6e : p = (EvKind.click, (cleanupHeader m).nextId) ∨
                      p = (EvKind.touchstart, (cleanupHeader m).nextId) ∨
                      p = (EvKind.keydown, (cleanupHeader m).nextId) ∨
                      p = (EvKind.docScroll, (cleanupHeader m).nextId) ∨
                      p = (EvKind.winResize, (cleanupHeader m).nextId) ∨
                      p = (EvKind.winScroll, (cleanupHeader m).nextId) := by
                    simpa [sixListeners] using hp6
                  rcases hp6e with rfl | rfl | rfl | rfl | rfl | rfl <;> exact he.symm
                · exact absurd (mem_headerSids_listeners hpold he) (hclean s)
            · rcases List.mem_cons.1 hobs with rfl | hoold
              · rfl
              · exact absurd (mem_headerSids_observers hoold) (hclean s)
          · rcases List.mem_cons.1 hctx with rfl | hcold
            · rfl
            · exact absurd (mem_headerSids_contexts hcold) (hclean s)
  rw [hkey s1 h1, hkey s2 h2]

/-- Witness for C5: re-initializing from the empty state, the fresh
surface 0 is the only live one. -/
theorem init_single_surface_witness : (0 : ℕ) = 0 :=
  init_single_surface headerModel0 true true 0 0
    (fun sid h => absurd h (by simp [headerModel0, headerSids]))
    (Or.inl rfl) (Or.inl rfl)

/-- Counterexample to claim C3 as stated: the string "toString" is not
one of the eight named modes, yet indexing ditherModes with it yields
the function inherited from Object.prototype, which is not nullish, so
the ?? fallback does not fire and the selected mode is not the
context default (neither atkinson = 1 for the header nor cluster4 = 5
for inline images). -/
theorem ditherMode_lookup_counterexample :
    ditherModesOwn.find? (fun p => p.1 == "toString") = none ∧
    selectDitherMode "atkinson" (some "toString") = JsValue.jsFunction "toString" ∧
    selectDitherMode "atkinson" (some "toString") ≠ JsValue.num 1 ∧
    selectDitherMode "cluster4" (some "toString") ≠ JsValue.num 5 := by
  refine ⟨rfl, rfl, ?_, ?_⟩ <;> decide

/-- Claim C3 as amended: for each of the eight named modes the selected
dither mode is its table integer, and for every other string that is
not the name of a property inherited from Object.prototype the
selection falls back to the context default (atkinson = 1 for the
header renderer, cluster4 = 5 for inline dithered images); the inherited
property names instead select the inherited member. -/
theorem ditherMode_lookup (s : String)
    (hown : ditherModesOwn.find? (fun p => p.1 == s) = none)
    (hproto : s ∉ objectProtoKeys) :
    selectDitherMode "atkinson" (some s) = JsValue.num 1 ∧
    selectDitherMode "cluster4" (some s) = JsValue.num 5 ∧
    (∀ name k, (name, k) ∈ ditherModesOwn →
      selectDitherMode "atkinson" (some name) = JsValue.num k ∧
      selectDitherMode "cluster4" (some name) = JsValue.num k) := by
  have hundef : jsGetDitherModes s = JsValue.undefined := by
    simp [jsGetDitherModes, hown, hproto]
  refine ⟨?_, ?_, ?_⟩
  · show (match jsGetDitherModes s with
      | .undefined => jsGetDitherModes "atkinson" | w => w) = JsValue.num 1
    rw [hundef]
    rfl
  · show (match jsGetDitherModes s with
      | .undefined => jsGetDitherModes "cluster4" | w => w) = JsValue.num 5
    rw [hundef]
    rfl
  · intro name k hmem
    fin_cases hmem <;> exact ⟨rfl, rfl⟩

/-- Witness for C3 (amended) at the unknown mode string "zzz". -/
theorem ditherMode_lookup_witness :
    (ditherModesOwn.find? (fun p => p.1 == "zzz") = none ∧ "zzz" ∉ objectProtoKeys) ∧
    (selectDitherMode "atkinson" (some "zzz") = JsValue.num 1 ∧
      selectDitherMode "cluster4" (some "zzz") = JsValue.num 5 ∧
      (∀ name k, (name, k) ∈ ditherModesOwn →
        selectDitherMode "atkinson" (some name) = JsValue.num k ∧
        selectDitherMode "cluster4" (some name) = JsValue.num k)) :=
  ⟨⟨by decide, by decide⟩, ditherMode_lookup "zzz" (by decide) (by decide)⟩

theorem table16_threshold_bounds {l : List ℕ} (hl : ∀ x ∈ l, x ≤ 15) (idx : ℕ) :
    0 ≤ ((l.getD idx 0 : ℕ) : ℚ) / 16 ∧ ((l.getD idx 0 : ℕ) : ℚ) / 16 ≤ 1 := by
  constructor
  · positivity
  · rw [div_le_one (by norm_num)]
    have h := getD_le_of_all hl idx
    have : ((l.getD idx 0 : ℕ) : ℚ) ≤ 15 := by exact_mod_cast h
    linarith

theorem hashGL_bounds (x y : ℚ) : 0 ≤ hashGL x y ∧ hashGL x y ≤ 1 := by
  unfold hashGL
  exact ⟨fractGL_nonneg _, (fractGL_lt_one _).le⟩

/-- Claim C1: for every dither mode and every pixel coordinate, the
threshold selected by the fragment-shader dispatch lies in [0, 1]: the
Atkinson and clustered 4x4 tables yield entries / 16, the 2x2 clustered
function yields one of 0, 0.25, 0.5, 0.75, the hash yields a fract in
[0, 1), and the Bayer, blue-noise and clustered 8x8 / 16x16 textures
hold bytes sampled as value / 255.  (Modes other than 0..7 take the
final else branch, the Bayer pattern, so the bound holds for every
integer.) -/
theorem ditherThreshold_bounds (off : ℕ → ℕ → ℤ × ℤ) (mode px py : ℕ) (gray : ℚ) :
    0 ≤ (ditherDispatch off mode px py gray).2 ∧
      (ditherDispatch off mode px py gray).2 ≤ 1 := by
  unfold ditherDispatch
  split_ifs
  · exact texSample_bounds _ (fun m => generateClusteredDot_le 16 m) 16 px py
  · exact texSample_bounds _ (fun m => getD_le_of_all (by decide) m) 8 px py
  · exact table16_threshold_bounds (by decide) _
  · unfold clusteredThreshold
    dsimp only
    split_ifs <;> norm_num
  · exact texSample_bounds _ (fun m => generateBlueNoise_le off 64 m) 64 px py
  · exact hashGL_bounds _ _
  · exact table16_threshold_bounds (by decide) _
  · exact texSample_bounds _ (fun m => getD_le_of_all (by decide) m) 8 px py

theorem distKey_cast (size i : ℕ) : ((distKey size i : ℤ) : ℚ) = 4 * distSq size i := by
  unfold distKey distSq
  generalize (i % size : ℕ) = a
  generalize (i / size : ℕ) = b
  push_cast
  ring

theorem clusterOrder_perm (size : ℕ) :
    (clusterOrder size).Perm (List.range (size * size)) :=
  List.perm_insertionSort _ _

theorem clusterOrder_nodup (size : ℕ) : (clusterOrder size).Nodup :=
  (clusterOrder_perm size).symm.nodup (List.nodup_range _)

theorem clusterOrder_sorted (size : ℕ) :
    List.Sorted (fun i j => distKey size i ≤ distKey size j) (clusterOrder size) := by
  haveI : IsTotal ℕ (fun i j => distKey size i ≤ distKey size j) :=
    ⟨fun a b => le_total _ _⟩
  haveI : IsTrans ℕ (fun i j => distKey size i ≤ distKey size j) :=
    ⟨fun a b c hab hbc => le_trans hab hbc⟩
  exact List.sorted_insertionSort _ _

/-- Claim C9: generateClusteredDot ranks pixels by Euclidean distance
from the cell center (size-1)/2: the byte of the pixel at position
`rank` of the distance-sorted order is floor(rank / n * 255), and a
pixel strictly closer to the center than another receives a threshold
at most the threshold of the other. -/
theorem clusteredDot_rank_monotone (size p q : ℕ)
    (hp : p < size * size) (hq : q < size * size)
    (hlt : distSq size p < distSq size q) :
    generateClusteredDot size p ≤ generateClusteredDot size q ∧
    (∀ r, r < size * size →
      generateClusteredDot size ((clusterOrder size).getD r 0) =
        255 * r / (size * size)) := by
  have hlen := clusterOrder_length size
  have hpmem : p ∈ clusterOrder size :=
    (clusterOrder_perm size).mem_iff.2 (List.mem_range.2 hp)
  have hqmem : q ∈ clusterOrder size :=
    (clusterOrder_perm size).mem_iff.2 (List.mem_range.2 hq)
  have hkey : distKey size p < distKey size q := by
    have hc : ((distKey size p : ℤ) : ℚ) < ((distKey size q : ℤ) : ℚ) := by
      rw [distKey_cast, distKey_cast]
      linarith
    exact_mod_cast hc
  have hi : (clusterOrder size).indexOf p < (clusterOrder size).length :=
    List.indexOf_lt_length.2 hpmem
  have hj : (clusterOrder size).indexOf q < (clusterOrder size).length :=
    List.indexOf_lt_length.2 hqmem
  constructor
  · rcases lt_trichotomy ((clusterOrder size).indexOf p)
      ((clusterOrder size).indexOf q) with h | h | h
    · unfold generateClusteredDot
      exact Nat.div_le_div_right (Nat.mul_le_mul_left _ h.le)
    · exfalso
      have hpq : p = q := by
        have h1 : (clusterOrder size).get ⟨(clusterOrder size).indexOf p, hi⟩ = p := by
          rw [List.get_eq_getElem]
          exact List.getElem_indexOf hi
        have h2 : (clusterOrder size).get ⟨(clusterOrder size).indexOf q, hj⟩ = q := by
          rw [List.get_eq_getElem]
          exact List.getElem_indexOf hj
        have hfin : (⟨(clusterOrder size).indexOf p, hi⟩ : Fin (clusterOrder size).length) =
            ⟨(clusterOrder size).indexOf q, hj⟩ := Fin.ext h
        rw [← h1, ← h2, hfin]
      rw [hpq] at hkey
      exact lt_irrefl _ hkey
    · exfalso
      have hrel := (clusterOrder_sorted size).rel_get_of_lt
        (a := ⟨(clusterOrder size).indexOf q, hj⟩)
        (b := ⟨(clusterOrder size).indexOf p, hi⟩) h
      have hgq : (clusterOrder size).get ⟨(clusterOrder size).indexOf q, hj⟩ = q :=
        List.getElem_indexOf hj
      have hgp : (clusterOrder size).get ⟨(clusterOrder size).indexOf p, hi⟩ = p :=
        List.getElem_indexOf hi
      rw [hgq, hgp] at hrel
      exact absurd hkey (not_lt.2 hrel)
  · intro r hr
    have hr' : r < (clusterOrder size).length := by rw [hlen]; exact hr
    unfold generateClusteredDot
    rw [List.getD_eq_getElem _ 0 hr', List.indexOf_getElem (clusterOrder_nodup size) r hr']

/-- Witness for C9 in the 3x3 cell: pixel 4 is the center, pixel 0 a
corner. -/
theorem clusteredDot_rank_monotone_witness :
    ((4 : ℕ) < 3 * 3 ∧ (0 : ℕ) < 3 * 3 ∧ distSq 3 4 < distSq 3 0) ∧
    (generateClusteredDot 3 4 ≤ generateClusteredDot 3 0 ∧
      (∀ r, r < 3 * 3 →
        generateClusteredDot 3 ((clusterOrder 3).getD r 0) = 255 * r / (3 * 3))) :=
  ⟨⟨by norm_num, by norm_num, by norm_num [distSq]⟩,
    clusteredDot_rank_monotone 3 4 0 (by norm_num) (by norm_num) (by norm_num [distSq])⟩

theorem stepQ_select (edge x : ℚ) (bg fg : Rgb) :
    Rgb.mk (mixQ bg.r fg.r (stepQ edge x)) (mixQ bg.g fg.g (stepQ edge x))
        (mixQ bg.b fg.b (stepQ edge x)) = if edge ≤ x then fg else bg := by
  unfold stepQ
  by_cases h : x < edge
  · rw [if_pos h, if_neg (not_le.2 h), mixQ_zero, mixQ_zero, mixQ_zero]
  · rw [if_neg h, if_pos (not_lt.1 h), mixQ_one, mixQ_one, mixQ_one]

/-- Claim C4 as amended.  First conjunct: of the eight modes, atkinson
(1) and the four clustered modes (4, 5, 6, 7) pre-adjust the grayscale
by a gain/bias transform clamped to [0, 1] (gains 1.2, 1.1, 1.15, 1.1,
1.08 and biases -0.1, 0, -0.05, -0.03, -0.02 respectively), while the
gaussian (0), noise (2) and bluenoise (3) modes threshold the grayscale
unadjusted.  Second conjunct: the header shader picks the output color
by a step comparison of the (adjusted) grayscale against the mode
threshold plus the fixed offset 0.1.  Third conjunct: the image shader
does the same except that its comparison value carries the additional
brightness-gated animated noise/flicker term on top of threshold +
0.1. -/
theorem dither_preadjust_and_step (off : ℕ → ℕ → ℤ × ℤ) (mode px py : ℕ) (g : ℚ)
    (tex : Rgb) (resX resY scroll t invertU sinv : ℚ) (bg fg : Rgb) :
    ((ditherDispatch off 1 px py g).1 = clamp01 (1.2 * g + (-0.1))
      ∧ (ditherDispatch off 4 px py g).1 = clamp01 (1.1 * g + 0)
      ∧ (ditherDispatch off 5 px py g).1 = clamp01 (1.15 * g + (-0.05))
      ∧ (ditherDispatch off 6 px py g).1 = clamp01 (1.1 * g + (-0.03))
      ∧ (ditherDispatch off 7 px py g).1 = clamp01 (1.08 * g + (-0.02))
      ∧ (ditherDispatch off 0 px py g).1 = g
      ∧ (ditherDispatch off 2 px py g).1 = g
      ∧ (ditherDispatch off 3 px py g).1 = g) ∧
    (headerFragment off mode px py tex resY scroll bg fg =
      if (ditherDispatch off mode px py (grayDot tex * headerFade resY scroll py)).2 + 0.1 ≤
          (ditherDispatch off mode px py (grayDot tex * headerFade resY scroll py)).1
      then fg else bg) ∧
    (imageFragment off mode px py tex resX resY t invertU sinv bg fg =
      let gray := mixQ (grayDot tex) (1 - grayDot tex) invertU * imageFade resX resY px py
      let gt := ditherDispatch off mode px py gray
      if gt.2 + 0.1 + imageAnimTerm px py t sinv gt.1 ≤ gt.1 then fg else bg) := by
  refine ⟨⟨?_, ?_, ?_, ?_, ?_, ?_, ?_, ?_⟩, ?_, ?_⟩
  · show clamp01 (g * 1.2 - 0.1) = clamp01 (1.2 * g + (-0.1))
    ring_nf
  · show clamp01 (g * 1.1) = clamp01 (1.1 * g + 0)
    ring_nf
  · show clamp01 (g * 1.15 - 0.05) = clamp01 (1.15 * g + (-0.05))
    ring_nf
  · show clamp01 (g * 1.1 - 0.03) = clamp01 (1.1 * g + (-0.03))
    ring_nf
  · show clamp01 (g * 1.08 - 0.02) = clamp01 (1.08 * g + (-0.02))
    ring_nf
  · rfl
  · rfl
  · rfl
  · unfold headerFragment
    exact stepQ_select _ _ bg fg
  · unfold imageFragment
    exact stepQ_select _ _ bg fg

/-- Counterexample to claim C4 as stated: it is not the case that every
one of the eight modes applies a clamped gain/bias pre-adjustment to the
grayscale before thresholding (with the header output a step comparison
against threshold + 0.1).  Concretely mode 2 (noise) forwards the
grayscale unadjusted: a clamped transform is bounded by 1, but at
grayscale 2 the dispatch leaves the value 2. -/
theorem dither_preadjust_counterexample :
    ¬ ((∀ mode, mode < 8 → ∃ gain bias : ℚ, ∀ g : ℚ,
          (ditherDispatch (fun _ _ => (0, 0)) mode 0 0 g).1 = clamp01 (gain * g + bias)) ∧
       (∀ off mode px py tex resY scroll bg fg,
          headerFragment off mode px py tex resY scroll bg fg =
            if (ditherDispatch off mode px py (grayDot tex * headerFade resY scroll py)).2 + 0.1 ≤
                (ditherDispatch off mode px py (grayDot tex * headerFade resY scroll py)).1
            then fg else bg)) := by
  intro h
  obtain ⟨gain, bias, hgb⟩ := h.1 2 (by norm_num)
  have h2 := hgb 2
  have h2v : (ditherDispatch (fun _ _ => (0, 0)) 2 0 0 (2 : ℚ)).1 = 2 := rfl
  rw [h2v] at h2
  have hle : clamp01 (gain * 2 + bias) ≤ 1 := clamp01_le_one _
  rw [← h2] at hle
  norm_num at hle
